import Mathlib

/-!
Verification of the mollie-api-node core: demand planning for iterator
combinators, the retrying transport layer (`makeRetrying`), the
`NetworkClient` verbs and list-envelope parsing, the paginated iterator
generator, and `checkId`-based identifier validation.

Machine integers are modelled as `Nat`/`Int`; JavaScript values relevant to
the claims are modelled by the explicit inductive `JValue` (JS `undefined`
is modelled as `Option.none` where it matters).
-/

namespace Mollie

/-! ## Demand planner (iterator combinators) -/

/-- Modelled from the spec: the demand planner of the iterator combinator
chain (`HelpfulIterator`) is not among the provided source files; only its
test suite is. `Demand` is either `Bounded(n)` or `Unbounded`: how many items
must ultimately be pulled from the upstream source. -/
inductive Demand where
  | bounded (n : Nat)
  | unbounded
deriving DecidableEq, Repr

/-- Modelled from the spec: `Bounded(a) + Bounded(b) = Bounded(a+b)`;
`Unbounded + b = Unbounded`. -/
def Demand.add : Demand → Demand → Demand
  | .bounded a, .bounded b => .bounded (a + b)
  | _, _ => .unbounded

/-- Modelled from the spec: `min(Bounded(a), Bounded(b)) = Bounded(min(a,b))`;
`min(Unbounded, b) = b`. -/
def Demand.dmin : Demand → Demand → Demand
  | .bounded a, .bounded b => .bounded (min a b)
  | .unbounded, b => b
  | a, .unbounded => a

/-- Modelled from the spec: a combinator descriptor of the chain. `filter`
and `map` carry no data relevant to demand. -/
inductive Combinator where
  | take (n : Nat)
  | drop (n : Nat)
  | filter
  | map
deriving DecidableEq, Repr

/-- Modelled from the spec: the per-combinator transform of the downstream
requirement (`Take(n)` ↦ `min(Bounded(n), d)`, `Drop(n)` ↦ `d + Bounded(n)`,
`Filter` ↦ `Unbounded`, `Map` ↦ `d`). -/
def Combinator.transform : Combinator → Demand → Demand
  | .take n, d => Demand.dmin (.bounded n) d
  | .drop n, d => Demand.add d (.bounded n)
  | .filter, _ => .unbounded
  | .map, d => d

/-- Modelled from the spec: the backward fold. The chain is the list of
combinators in application order (head = earliest applied, innermost); the
fold starts from `Unbounded` at the outermost node and walks inward. -/
def chainDemand (chain : List Combinator) : Demand :=
  chain.foldr Combinator.transform .unbounded

/-- The fixed default first-page size of the remote API. -/
def DEFAULT_PAGE_SIZE : Nat := 128

/-- The maximum page size accepted by the remote API. -/
def MAX_PAGE_SIZE : Nat := 250

/-- Modelled from the spec: translating the chain's total demand into the
concrete size of the very first page request: `Bounded(n)` requests
`min(n, MAX_PAGE_SIZE)`, `Unbounded` requests `DEFAULT_PAGE_SIZE`. -/
def firstPageSize (chain : List Combinator) : Nat :=
  match chainDemand chain with
  | .bounded n => min n MAX_PAGE_SIZE
  | .unbounded => DEFAULT_PAGE_SIZE

/-! ## Retrying transport layer (`makeRetrying`) -/

/-- The delay, in milliseconds, between attempts (`retryDelay = 2e3`). -/
def retryDelay : Nat := 2000

/-- The maximum number of attempts per request (`attemptLimit = 3`):
one initial attempt plus up to two retries. -/
def attemptLimit : Nat := 3

/-- A server response, as far as the retry layer observes it: an HTTP status
code and the value of the `retry-after` header when present. -/
structure RetryResponse where
  status : Nat
  retryAfterHeader : Option String
deriving DecidableEq, Repr

/-- An error reaching the response interceptor: the 0-based attempt index
stored in the request configuration, and the server response when one was
obtained (`none` models a lower-layer transport error). -/
structure ReqError where
  attemptIdx : Nat
  response : Option RetryResponse
deriving DecidableEq, Repr

/-- Whether a character is JavaScript whitespace, as skipped by `parseInt`. -/
def isJsWhitespace (c : Char) : Bool :=
  c = ' ' ∨ c = '\t' ∨ c = '\n' ∨ c = '\r'

/-- JavaScript `parseInt(s, 10)`: skip leading whitespace, optional sign,
then the longest prefix of decimal digits; `none` when no digit follows
(the `NaN` case). -/
def parseIntJS (s : String) : Option Int :=
  let cs := s.data.dropWhile isJsWhitespace
  let sign : Int := if cs.head? = some '-' then -1 else 1
  let rest := if cs.head? = some '-' ∨ cs.head? = some '+' then cs.tail else cs
  let digits := rest.takeWhile Char.isDigit
  if digits.isEmpty then none
  else some (sign * (digits.foldl (fun a c => a * 10 + (c.toNat - 48)) 0 : Nat))

/-- `parseRetryAfterHeader`: parse the `retry-after` header with
`parseInt(·, 10)` and convert seconds to milliseconds; `none` when the
header is absent or not parseable into a numeric value (JS
`parseInt(undefined, 10)` is `NaN`). -/
def parseRetryAfterHeader (response : RetryResponse) : Option Int :=
  match response.retryAfterHeader with
  | none => none
  | some s =>
    match parseIntJS s with
    | none => none
    | some n => some (n * 1000)

/-- The response-interceptor decision of `makeRetrying`: another attempt is
scheduled unless the attempt index equals `attemptLimit - 1`, there is no
response, or the response's status class is not 5××. -/
def shouldRetry (e : ReqError) : Bool :=
  if e.attemptIdx = attemptLimit - 1 then false
  else match e.response with
    | none => false
    | some r => r.status / 100 = 5

/-- The delay before the scheduled attempt: the parsed `Retry-After` value
when available, else the default `retryDelay`. Only meaningful when
`shouldRetry` holds. -/
def retryDelayFor (r : RetryResponse) : Int :=
  (parseRetryAfterHeader r).getD (retryDelay : Int)

/-- The outcome of one attempt of a request, as produced by the lower
layers: a successful response, or an error carrying the response when one
was obtained. -/
inductive Outcome where
  | success (r : RetryResponse)
  | failure (response : Option RetryResponse)
deriving DecidableEq, Repr

/-- Runs the retry loop of `makeRetrying` from attempt index `idx`:
`outcomes i` is what the i-th attempt of the logical request produces.
Returns the number of attempts made and the final result. `fuel` bounds the
recursion; `attemptLimit` fuel suffices from index 0, since `shouldRetry`
is false at index `attemptLimit - 1`. -/
def runRequest (outcomes : Nat → Outcome) : Nat → Nat → Nat × Except ReqError RetryResponse
  | 0, idx => (0, .error ⟨idx, none⟩)
  | fuel + 1, idx =>
    match outcomes idx with
    | .success r => (1, .ok r)
    | .failure resp =>
      let e : ReqError := ⟨idx, resp⟩
      if shouldRetry e then
        let rec' := runRequest outcomes fuel (idx + 1)
        (rec'.1 + 1, rec'.2)
      else (1, .error e)

end Mollie

/-! ## Theorems for the demand planner -/

/-- C1: the demand planner sizes the very first page request exactly per the
spec's demand table: 128 for no combinators, 80 for take(80), 128 for
drop(10), 90 for drop(10).take(80), 80 for take(80).drop(10), 90 for
drop(10).take(80).drop(10), 80 for take(100).take(80) and take(80).take(100),
80 for take(80).filter, 128 for filter.take(80), 80 for take(80).map and
map.take(80), and 250 for take(300) and take(3218). -/
theorem demand_table_first_page_sizes :
    Mollie.firstPageSize [] = 128 ∧
    Mollie.firstPageSize [.take 80] = 80 ∧
    Mollie.firstPageSize [.drop 10] = 128 ∧
    Mollie.firstPageSize [.drop 10, .take 80] = 90 ∧
    Mollie.firstPageSize [.take 80, .drop 10] = 80 ∧
    Mollie.firstPageSize [.drop 10, .take 80, .drop 10] = 90 ∧
    Mollie.firstPageSize [.take 100, .take 80] = 80 ∧
    Mollie.firstPageSize [.take 80, .take 100] = 80 ∧
    Mollie.firstPageSize [.take 80, .filter] = 80 ∧
    Mollie.firstPageSize [.filter, .take 80] = 128 ∧
    Mollie.firstPageSize [.take 80, .map] = 80 ∧
    Mollie.firstPageSize [.map, .take 80] = 80 ∧
    Mollie.firstPageSize [.take 300] = 250 ∧
    Mollie.firstPageSize [.take 3218] = 250 := by
  decide

/-! ## Theorems for the retrying transport layer -/

namespace Mollie

/-- A nonempty string consisting solely of decimal digits: the shape of a
plain (nonnegative) integer header value. -/
def isPlainDigitString (s : String) : Bool :=
  !s.data.isEmpty && s.data.all Char.isDigit

/-- The numeric value of an all-digit string. -/
def digitValue (s : String) : Nat :=
  s.data.foldl (fun a c => a * 10 + (c.toNat - 48)) 0

/-- Whether the character is an ASCII letter. -/
def isAsciiLetter (c : Char) : Bool :=
  (65 ≤ c.toNat && c.toNat ≤ 90) || (97 ≤ c.toNat && c.toNat ≤ 122)

/-- Whether the string starts with an ASCII letter, as every HTTP-date
(`Fri, 31 Dec 1999 23:59:59 GMT`, …) does. -/
def headIsLetter (s : String) : Bool :=
  match s.data with
  | c :: _ => isAsciiLetter c
  | [] => false

theorem toNat_range_of_isDigit (c : Char) (hc : c.isDigit = true) :
    48 ≤ c.toNat ∧ c.toNat ≤ 57 := by
  simp only [Char.isDigit, Bool.and_eq_true, decide_eq_true_eq, UInt32.le_def,
    BitVec.le_def] at hc
  unfold Char.toNat UInt32.toNat
  exact ⟨by exact_mod_cast hc.1, by exact_mod_cast hc.2⟩

theorem not_digit_of_isAsciiLetter (c : Char) (hc : isAsciiLetter c = true) :
    c.isDigit = false := by
  by_cases hd : c.isDigit = true
  · obtain ⟨h1, h2⟩ := toNat_range_of_isDigit c hd
    simp only [isAsciiLetter, Bool.or_eq_true, Bool.and_eq_true, decide_eq_true_eq] at hc
    omega
  · simpa using hd

theorem not_ws_of_isDigit (c : Char) (hc : c.isDigit = true) :
    isJsWhitespace c = false := by
  simp only [isJsWhitespace, decide_eq_false_iff_not]
  push_neg
  refine ⟨?_, ?_, ?_, ?_⟩ <;> (rintro rfl; exact absurd hc (by decide))

theorem not_ws_of_isAsciiLetter (c : Char) (hc : isAsciiLetter c = true) :
    isJsWhitespace c = false := by
  simp only [isJsWhitespace, decide_eq_false_iff_not]
  push_neg
  refine ⟨?_, ?_, ?_, ?_⟩ <;> (rintro rfl; exact absurd hc (by decide))

theorem ne_sign_of_isDigit (c : Char) (hc : c.isDigit = true) :
    c ≠ '-' ∧ c ≠ '+' :=
  ⟨by rintro rfl; exact absurd hc (by decide), by rintro rfl; exact absurd hc (by decide)⟩

theorem ne_sign_of_isAsciiLetter (c : Char) (hc : isAsciiLetter c = true) :
    c ≠ '-' ∧ c ≠ '+' :=
  ⟨by rintro rfl; exact absurd hc (by decide), by rintro rfl; exact absurd hc (by decide)⟩

end Mollie

/-- C2: a failed request is retried iff a server response was obtained whose
status class is 5×× and the 0-based attempt counter has not reached the
limit of 3 total attempts; an error with no response or a non-5×× status is
rejected without retry. Stated for the reachable attempt indices
(`attemptIdx < attemptLimit`). -/
theorem retry_iff_5xx_and_attempts_remain (e : Mollie.ReqError)
    (h : e.attemptIdx < Mollie.attemptLimit) :
    Mollie.shouldRetry e = true ↔
      (∃ r, e.response = some r ∧ r.status / 100 = 5) ∧
        e.attemptIdx + 1 < Mollie.attemptLimit := by
  obtain ⟨idx, resp⟩ := e
  simp only [Mollie.shouldRetry, Mollie.attemptLimit] at *
  cases resp with
  | none => simp
  | some r =>
    by_cases hidx : idx = 2
    · subst hidx; simp
    · simp only [hidx, if_false]
      constructor
      · intro hr
        exact ⟨⟨r, rfl, by simpa using hr⟩, by omega⟩
      · rintro ⟨⟨r', hr', h5⟩, -⟩
        cases hr'
        simpa using h5

/-- Witness for C2 at a concrete error: attempt index 0 with a 503
response is retried. -/
theorem retry_iff_5xx_witness :
    Mollie.shouldRetry ⟨0, some ⟨503, none⟩⟩ = true ↔
      (∃ r, (some (⟨503, none⟩ : Mollie.RetryResponse)) = some r ∧ r.status / 100 = 5) ∧
        0 + 1 < Mollie.attemptLimit :=
  retry_iff_5xx_and_attempts_remain ⟨0, some ⟨503, none⟩⟩ (by decide)

/-- C3: a logical request receiving a 5×× response on every attempt is
attempted exactly 3 times (indices 0, 1, 2) and then fails, surfacing the
last server error (attempt index 2, the third attempt's response)
unchanged. -/
theorem always_5xx_exactly_three_attempts
    (responses : Nat → Mollie.RetryResponse) (outcomes : Nat → Mollie.Outcome)
    (h5 : ∀ i, (responses i).status / 100 = 5)
    (ho : ∀ i, outcomes i = .failure (some (responses i))) :
    Mollie.runRequest outcomes Mollie.attemptLimit 0 =
      (3, .error ⟨2, some (responses 2)⟩) := by
  have s0 : Mollie.shouldRetry ⟨0, some (responses 0)⟩ = true := by
    simp [Mollie.shouldRetry, Mollie.attemptLimit, h5 0]
  have s1 : Mollie.shouldRetry ⟨1, some (responses 1)⟩ = true := by
    simp [Mollie.shouldRetry, Mollie.attemptLimit, h5 1]
  have s2 : Mollie.shouldRetry ⟨2, some (responses 2)⟩ = false := by
    simp [Mollie.shouldRetry, Mollie.attemptLimit]
  simp [Mollie.runRequest, Mollie.attemptLimit, ho, s0, s1, s2]

/-- Witness for C3: with every attempt producing a 500 response, exactly
three attempts are made and the third attempt's error is surfaced. -/
theorem always_5xx_witness :
    Mollie.runRequest (fun _ => .failure (some ⟨500, none⟩)) Mollie.attemptLimit 0 =
      (3, .error ⟨2, some ⟨500, none⟩⟩) :=
  always_5xx_exactly_three_attempts (fun _ => ⟨500, none⟩) (fun _ => .failure (some ⟨500, none⟩))
    (fun _ => show (500 : Nat) / 100 = 5 by decide) (fun _ => rfl)

/-- C5: the retry delay equals the `Retry-After` header value converted from
seconds to milliseconds whenever the header is present and is a plain
integer; an HTTP-date (which starts with a letter) or an absent header
yields the fixed default delay of 2000 milliseconds. -/
theorem retry_after_header_delay :
    (∀ (st : Nat) (s : String), Mollie.isPlainDigitString s = true →
      Mollie.retryDelayFor ⟨st, some s⟩ = (Mollie.digitValue s : Int) * 1000) ∧
    (∀ (st : Nat) (s : String), Mollie.headIsLetter s = true →
      Mollie.retryDelayFor ⟨st, some s⟩ = 2000) ∧
    (∀ st : Nat, Mollie.retryDelayFor ⟨st, none⟩ = 2000) := by
  refine ⟨?_, ?_, fun st => rfl⟩
  · intro st s hs
    simp only [Mollie.isPlainDigitString, Bool.and_eq_true, List.all_eq_true,
      Bool.not_eq_true', List.isEmpty_eq_false] at hs
    obtain ⟨hne, hdig⟩ := hs
    cases hcs : s.data with
    | nil => exact absurd hcs hne
    | cons c t =>
      have hc : c.isDigit = true := hdig c (hcs ▸ List.mem_cons_self c t)
      have hws := Mollie.not_ws_of_isDigit c hc
      have hdrop : (c :: t).dropWhile Mollie.isJsWhitespace = c :: t := by
        rw [List.dropWhile_cons, hws]; simp
      obtain ⟨hcm, hcp⟩ := Mollie.ne_sign_of_isDigit c hc
      have htake : (c :: t).takeWhile Char.isDigit = c :: t :=
        List.takeWhile_eq_self_iff.mpr (by intro x hx; exact hdig x (hcs ▸ hx))
      simp only [Mollie.retryDelayFor, Mollie.parseRetryAfterHeader, Mollie.parseIntJS, hcs,
        hdrop, List.head?_cons, Option.some.injEq, hcm, hcp, if_false, or_self, htake,
        List.isEmpty_cons, Bool.false_eq_true, Mollie.digitValue]
      simp [Option.getD, one_mul]
  · intro st s hs
    simp only [Mollie.headIsLetter] at hs
    cases hcs : s.data with
    | nil => simp [hcs] at hs
    | cons c t =>
      rw [hcs] at hs
      have hws := Mollie.not_ws_of_isAsciiLetter c hs
      have hdrop : (c :: t).dropWhile Mollie.isJsWhitespace = c :: t := by
        rw [List.dropWhile_cons, hws]; simp
      have hnd := Mollie.not_digit_of_isAsciiLetter c hs
      obtain ⟨hcm, hcp⟩ := Mollie.ne_sign_of_isAsciiLetter c hs
      have htake : (c :: t).takeWhile Char.isDigit = [] := by
        rw [List.takeWhile_cons, hnd]; rfl
      simp [Mollie.retryDelayFor, Mollie.parseRetryAfterHeader, Mollie.parseIntJS, hcs,
        hdrop, hcm, hcp, htake, Mollie.retryDelay]

/-- Witness for C5: `Retry-After: 5` yields a 5000 ms delay; an HTTP-date
value falls back to the 2000 ms default. -/
theorem retry_after_header_witness :
    Mollie.retryDelayFor ⟨503, some "5"⟩ = 5000 ∧
    Mollie.retryDelayFor ⟨503, some "Fri, 31 Dec 1999 23:59:59 GMT"⟩ = 2000 := by
  constructor
  · have h := retry_after_header_delay.1 503 "5" (by decide)
    simpa using h
  · exact retry_after_header_delay.2.1 503 "Fri, 31 Dec 1999 23:59:59 GMT" (by decide)

/-! ## Idempotency keys (`generateIdempotencyHeader` and the write wrappers) -/

namespace Mollie

/-- The base64 alphabet used by Node's `Buffer.prototype.toString('base64')`. -/
def base64Chars : List Char :=
  "ABCDEFGHIJKLMNOPQRSTUVWXYZabcdefghijklmnopqrstuvwxyz0123456789+/".data

/-- The base64 character of a sextet (0–63). -/
def sextetToChar (n : Nat) : Char :=
  base64Chars.getD n '='

/-- The sextet of a base64 character. -/
def charToSextet (c : Char) : Nat :=
  base64Chars.indexOf c

/-- Base64-encodes a byte list, three bytes to four characters, with `=`
padding for a trailing partial group (never reached for 18-byte inputs). -/
def base64Chunks : List Nat → List Char
  | b1 :: b2 :: b3 :: rest =>
    sextetToChar (b1 / 4) :: sextetToChar (b1 % 4 * 16 + b2 / 16) ::
      sextetToChar (b2 % 16 * 4 + b3 / 64) :: sextetToChar (b3 % 64) :: base64Chunks rest
  | [b1, b2] => [sextetToChar (b1 / 4), sextetToChar (b1 % 4 * 16 + b2 / 16), sextetToChar (b2 % 16 * 4), '=']
  | [b1] => [sextetToChar (b1 / 4), sextetToChar (b1 % 4 * 16), '=', '=']
  | [] => []

/-- `randomBytes(n).toString('base64')`: the base64 string of a byte list. -/
def base64Encode (bs : List Nat) : String :=
  String.mk (base64Chunks bs)

/-- Inverse of the sextet grouping, for full four-sextet groups. -/
def sextetsToBytes : List Nat → List Nat
  | s1 :: s2 :: s3 :: s4 :: rest =>
    (s1 * 4 + s2 / 16) :: (s2 % 16 * 16 + s3 / 4) :: (s3 % 4 * 64 + s4) :: sextetsToBytes rest
  | _ => []

theorem charToSextet_sextetToChar : ∀ s < 64, charToSextet (sextetToChar s) = s := by
  decide

theorem base64Chunks_length (bs : List Nat) :
    (base64Chunks bs).length = (bs.length + 2) / 3 * 4 := by
  induction bs using base64Chunks.induct with
  | case1 b1 b2 b3 rest ih =>
    simp only [base64Chunks, List.length_cons, ih]
    omega
  | case2 b1 b2 => simp [base64Chunks]
  | case3 b1 => simp [base64Chunks]
  | case4 => rfl

theorem base64_roundtrip (bs : List Nat) :
    (∀ b ∈ bs, b < 256) → bs.length % 3 = 0 →
      sextetsToBytes ((base64Chunks bs).map charToSextet) = bs := by
  induction bs using base64Chunks.induct with
  | case1 b1 b2 b3 rest ih =>
    intro hb h3
    have hb1 : b1 < 256 := hb b1 (by simp)
    have hb2 : b2 < 256 := hb b2 (by simp)
    have hb3 : b3 < 256 := hb b3 (by simp)
    simp only [base64Chunks, List.map_cons]
    rw [charToSextet_sextetToChar _ (by omega), charToSextet_sextetToChar _ (by omega),
      charToSextet_sextetToChar _ (by omega), charToSextet_sextetToChar _ (by omega)]
    simp only [sextetsToBytes]
    refine congrArg₂ _ (by omega) (congrArg₂ _ (by omega) (congrArg₂ _ (by omega) ?_))
    refine ih (fun b hbm => hb b (by simp [hbm])) ?_
    simp only [List.length_cons] at h3
    omega
  | case2 b1 b2 => intro _ h3; simp at h3
  | case3 b1 => intro _ h3; simp at h3
  | case4 => intro _ _; rfl

theorem base64Encode_injOn (bs1 bs2 : List Nat)
    (hb1 : ∀ b ∈ bs1, b < 256) (h31 : bs1.length % 3 = 0)
    (hb2 : ∀ b ∈ bs2, b < 256) (h32 : bs2.length % 3 = 0)
    (heq : base64Encode bs1 = base64Encode bs2) : bs1 = bs2 := by
  have hchars : base64Chunks bs1 = base64Chunks bs2 := by
    have := congrArg String.data heq
    simpa [base64Encode] using this
  calc bs1 = sextetsToBytes ((base64Chunks bs1).map charToSextet) :=
        (base64_roundtrip bs1 hb1 h31).symm
    _ = sextetsToBytes ((base64Chunks bs2).map charToSextet) := by rw [hchars]
    _ = bs2 := base64_roundtrip bs2 hb2 h32

theorem base64Encode_length (bs : List Nat) (h : bs.length = 18) :
    (base64Encode bs).length = 24 := by
  show (base64Chunks bs).length = 24
  rw [base64Chunks_length, h]

/-- The request configuration, as far as the retry layer reads and writes
it: the headers and the `_attemptIndex` property (absent until the request
interceptor first runs). -/
structure AxiosConfig where
  headers : List (String × String)
  attemptIdx : Option Nat
deriving DecidableEq, Repr

/-- The request interceptor of `makeRetrying`:
`config[attemptIndex] = (config[attemptIndex] ?? -1) + 1`. -/
def interceptRequest (cfg : AxiosConfig) : AxiosConfig :=
  { cfg with attemptIdx := some (match cfg.attemptIdx with | none => 0 | some n => n + 1) }

/-- Reads a header from the config; the spread `{ ...config?.headers,
...generateIdempotencyHeader() }` lets the later binding win, so the last
occurrence in the list is the effective one. -/
def getHeader (hs : List (String × String)) (k : String) : Option String :=
  (hs.reverse.lookup k)

/-- `generateIdempotencyHeader`, applied to the bytes drawn from the
entropy source: the `'Idempotency-Key'` binding. -/
def generateIdempotencyHeader (entropy : List Nat) : String × String :=
  ("Idempotency-Key", base64Encode entropy)

/-- The retry loop threading the (unchanged) request configuration: each
pass re-enters the request interceptor, issues the attempt, and re-submits
the very same configuration on retry. Returns the configuration of every
attempt made and the final result. -/
def runWrite (outcomes : Nat → Outcome) : Nat → AxiosConfig → List AxiosConfig × Except ReqError RetryResponse
  | 0, _ => ([], .error ⟨0, none⟩)
  | fuel + 1, cfg =>
    let cfg' := interceptRequest cfg
    let idx := cfg'.attemptIdx.getD 0
    match outcomes idx with
    | .success r => ([cfg'], .ok r)
    | .failure resp =>
      if shouldRetry ⟨idx, resp⟩ then
        let rest := runWrite outcomes fuel cfg'
        (cfg' :: rest.1, rest.2)
      else ([cfg'], .error ⟨idx, resp⟩)

/-- The `post`/`delete` wrapper installed by `makeRetrying`: the idempotency
header is generated once and appended to the caller's headers (the spread
lets it win), after which the logical request runs through the retry loop. -/
def postRun (baseHeaders : List (String × String)) (entropy : List Nat)
    (outcomes : Nat → Outcome) : List AxiosConfig × Except ReqError RetryResponse :=
  runWrite outcomes attemptLimit ⟨baseHeaders ++ [generateIdempotencyHeader entropy], none⟩

theorem runWrite_headers_const (outcomes : Nat → Outcome) (fuel : Nat) :
    ∀ cfg, ∀ c ∈ (runWrite outcomes fuel cfg).1, c.headers = cfg.headers := by
  induction fuel with
  | zero => intro cfg c hc; simp [runWrite] at hc
  | succ n ih =>
    intro cfg c hc
    simp only [runWrite] at hc
    split at hc
    · simp only [List.mem_singleton] at hc
      subst hc; rfl
    · split at hc
      · simp only [List.mem_cons] at hc
        rcases hc with rfl | hc
        · rfl
        · exact ih (interceptRequest cfg) c hc
      · simp only [List.mem_singleton] at hc
        subst hc; rfl

end Mollie

/-- C4: every POST/DELETE request carries an `Idempotency-Key` header whose
value is a 24-character base64 string generated once per logical request:
every attempt of the same logical write carries the identical token, and two
logical writes with distinct entropy draws never share one. -/
theorem idempotency_key_per_logical_write
    (baseHeaders : List (String × String)) (e1 e2 : List Nat)
    (outcomes1 : Nat → Mollie.Outcome)
    (h1len : e1.length = 18) (h1b : ∀ b ∈ e1, b < 256)
    (h2len : e2.length = 18) (h2b : ∀ b ∈ e2, b < 256)
    (hne : e1 ≠ e2) :
    (Mollie.base64Encode e1).length = 24 ∧
    (∀ cfg ∈ (Mollie.postRun baseHeaders e1 outcomes1).1,
        Mollie.getHeader cfg.headers "Idempotency-Key" = some (Mollie.base64Encode e1)) ∧
    Mollie.base64Encode e1 ≠ Mollie.base64Encode e2 := by
  refine ⟨Mollie.base64Encode_length e1 h1len, ?_, ?_⟩
  · intro cfg hcfg
    have hh := Mollie.runWrite_headers_const outcomes1 Mollie.attemptLimit _ cfg hcfg
    rw [hh]
    simp [Mollie.getHeader, Mollie.generateIdempotencyHeader]
  · intro h
    exact hne (Mollie.base64Encode_injOn e1 e2 h1b (by omega) h2b (by omega) h)

/-- Witness for C4 at two concrete 18-byte entropy draws. -/
theorem idempotency_key_witness :
    (Mollie.base64Encode [0, 0, 0, 0, 0, 0, 0, 0, 0, 0, 0, 0, 0, 0, 0, 0, 0, 0]).length = 24 ∧
    (∀ cfg ∈ (Mollie.postRun [] [0, 0, 0, 0, 0, 0, 0, 0, 0, 0, 0, 0, 0, 0, 0, 0, 0, 0]
        (fun _ => .success ⟨200, none⟩)).1,
        Mollie.getHeader cfg.headers "Idempotency-Key" =
          some (Mollie.base64Encode [0, 0, 0, 0, 0, 0, 0, 0, 0, 0, 0, 0, 0, 0, 0, 0, 0, 0])) ∧
    Mollie.base64Encode [0, 0, 0, 0, 0, 0, 0, 0, 0, 0, 0, 0, 0, 0, 0, 0, 0, 0] ≠
      Mollie.base64Encode [0, 0, 0, 0, 0, 0, 0, 0, 0, 0, 0, 0, 0, 0, 0, 0, 0, 1] :=
  idempotency_key_per_logical_write [] _ _ (fun _ => .success ⟨200, none⟩)
    (by decide) (by decide) (by decide) (by decide) (by decide)

/-! ## `NetworkClient` verbs and the list envelope -/

namespace Mollie

/-- A JavaScript value as relevant to response bodies. `undefined` is
modelled as `Option.none` at the use sites. -/
inductive JValue where
  | null
  | bool (b : Bool)
  | num (n : Int)
  | str (s : String)
  | arr (elems : List JValue)
  | obj (fields : List (String × JValue))

/-- An HTTP response as observed by the `NetworkClient` verbs: the status
and the parsed body (`data`). -/
structure VerbResponse where
  status : Nat
  data : JValue

/-- `NetworkClient.post`: an HTTP 204 response yields the boolean success
sentinel `true`; any other response yields `response.data`. -/
def NetworkClient.post (r : VerbResponse) : JValue :=
  if r.status = 204 then .bool true else r.data

/-- `NetworkClient.get`: yields `response.data`, unconditionally. -/
def NetworkClient.get (r : VerbResponse) : JValue :=
  r.data

/-- `NetworkClient.patch`: yields `response.data`, unconditionally. -/
def NetworkClient.patch (r : VerbResponse) : JValue :=
  r.data

/-- `NetworkClient.delete`: an HTTP 204 response yields the boolean success
sentinel `true`; any other response yields `response.data`. -/
def NetworkClient.delete (r : VerbResponse) : JValue :=
  if r.status = 204 then .bool true else r.data

end Mollie

namespace Mollie

/-- JavaScript property access `v[k]` on a parsed JSON value: `some` for a
present object field, `none` for everything else (the `undefined` result). -/
def JValue.getProp (v : JValue) (k : String) : Option JValue :=
  match v with
  | .obj fields => fields.lookup k
  | _ => none

/-- The outcome of `NetworkClient.list` on a 2×× response. -/
inductive ListOutcome where
  | ok (items : JValue) (links : Option JValue) (count : Option JValue)
  | apiError (message : String)
  | typeError

/-- `NetworkClient.list` on a successful (2××) response. Destructuring
`{ _embedded, _links, count } = response.data` throws only when the body is
null or undefined; that throw is caught and re-raised as the ApiError
`Received unexpected response from the server`. Otherwise `embedded[type]`
and the `Object.assign` on it run outside the try block, so when
`_embedded` is absent or null, or its `type` property is absent or null,
the TypeError escapes uncaught. -/
def NetworkClient.list (tp : String) (body : Option JValue) : ListOutcome :=
  match body with
  | none => .apiError "Received unexpected response from the server"
  | some .null => .apiError "Received unexpected response from the server"
  | some d =>
    match d.getProp "_embedded" with
    | none => .typeError
    | some .null => .typeError
    | some e =>
      match e.getProp tp with
      | none => .typeError
      | some .null => .typeError
      | some items => .ok items (d.getProp "_links") (d.getProp "count")

/-! ## The `iterate` generator -/

/-- One page as the iterator receives it: its items (opaque, modelled as
naturals) and whether `links.next` carries a continuation href. -/
structure Page where
  items : List Nat
  hasNext : Bool
deriving DecidableEq, Repr

/-- The suspended state of the `iterate` generator between consumer pulls:
the remaining items of `currentPage` (`shift` pops the head), whether the
current page has `links.next`, the `nextPage` request in flight (modelled
by its eventual result), the pages the server still serves for successive
continuations, and the number of page requests issued so far. -/
structure IterState where
  buffer : List Nat
  hasNext : Bool
  pending : Option Page
  rest : List Page
  requests : Nat
deriving DecidableEq, Repr

/-- `iteratorLowWaterMark = 5.5`. -/
def iteratorLowWaterMark : ℚ := 11 / 2

/-- The post-yield check of `iterate`: if no request is pending, the current
page has a continuation link, and the buffer is below the low water mark,
issue the request for the next page. -/
def prefetchCheck (s : IterState) : IterState :=
  if s.pending = none ∧ s.hasNext = true ∧ (s.buffer.length : ℚ) < iteratorLowWaterMark then
    match s.rest with
    | p :: ps => { s with pending := some p, rest := ps, requests := s.requests + 1 }
    | [] => { s with pending := some ⟨[], false⟩, requests := s.requests + 1 }
  else s

/-- The shift/swap logic of `iterate`: pop the next buffered item; when the
buffer is exhausted, await the pending page if any, swap it in and pop from
it; `none` means the generator returns. -/
def getNextItem (s : IterState) : Option (Nat × IterState) :=
  match s.buffer with
  | item :: rest => some (item, { s with buffer := rest })
  | [] =>
    match s.pending with
    | none => none
    | some p =>
      match p.items with
      | item :: rest =>
        some (item, { s with buffer := rest, hasNext := p.hasNext, pending := none })
      | [] => none

/-- The state right after the initial `list` request for the first page,
which the generator makes on the first pull. -/
def startIter (pages : List Page) : IterState :=
  match pages with
  | p :: ps => ⟨p.items, p.hasNext, none, ps, 1⟩
  | [] => ⟨[], false, none, [], 1⟩

/-- A consumer pull after the first: resume at the suspended yield (running
the post-yield prefetch check), then the shift/swap logic. -/
def pull (s : IterState) : Option (Nat × IterState) :=
  getNextItem (prefetchCheck s)

/-- Runs `n` further consumer pulls from a suspended state. -/
def runFrom (s : IterState) : Nat → List Nat × IterState
  | 0 => ([], s)
  | n + 1 =>
    match pull s with
    | none => ([], s)
    | some (x, s') =>
      let r := runFrom s' n
      (x :: r.1, r.2)

/-- Runs the generator for `n` consumer pulls from scratch: the first pull
makes the initial page request and yields without a prefetch check; the
later pulls go through `pull`. A consumer that breaks after `n` items
simply never pulls again. -/
def runIter (pages : List Page) (n : Nat) : List Nat × IterState :=
  match n with
  | 0 => ([], ⟨[], false, none, pages, 0⟩)
  | n + 1 =>
    match getNextItem (startIter pages) with
    | none => ([], startIter pages)
    | some (x, s') =>
      let r := runFrom s' n
      (x :: r.1, r.2)

/-! ## `checkId` and `PermissionsBinder.get` -/

/-- The prefix map of `checkId`, with the thirteen registered resource
kinds. -/
def prefixes : List (String × String) :=
  [("capture", "cpt_"), ("chargeback", "chb_"), ("customer", "cst_"), ("mandate", "mdt_"),
   ("order", "ord_"), ("orderline", "odl_"), ("organization", "org_"), ("payment", "tr_"),
   ("payment-link", "pl_"), ("profile", "pfl_"), ("refund", "re_"), ("shipment", "shp_"),
   ("subscription", "sub_")]

/-- `checkId`: a non-string value is invalid; otherwise the result is
`value.startsWith(prefixes.get(resource)!)`. For an unregistered resource
kind the lookup is `undefined`, which JS coerces to the literal string
"undefined" inside `startsWith`; `getD "undefined"` models that coercion,
and the prefix test is carried out on the character lists. -/
def checkId (value : Option String) (resource : String) : Bool :=
  match value with
  | none => false
  | some v => ((prefixes.lookup resource).getD "undefined").data.isPrefixOf v.data

/-- What `PermissionsBinder.get` does before and instead of touching the
network. -/
inductive GetPermissionResult where
  | apiError (message : String)
  | networkGet (path : String)
deriving DecidableEq, Repr

/-- `PermissionsBinder.get`: validates the id with `checkId(id, 'permission')`
before any network access; on failure it throws the ApiError, otherwise it
performs the GET on `permissions/<id>`. -/
def PermissionsBinder.get (id : String) : GetPermissionResult :=
  if checkId (some id) "permission" = false then .apiError "The permission id is invalid"
  else .networkGet ("permissions/" ++ id)

end Mollie

/-! ## Theorems for the NetworkClient verbs and list envelope -/

/-- C6 counterexample: `NetworkClient.get` of an HTTP 204 response with an
empty body returns the body (axios resolves it to the empty string), not
the boolean success sentinel, because `get` (like `patch`) never inspects
the status. -/
theorem get_204_counterexample :
    Mollie.NetworkClient.get ⟨204, .str ""⟩ = .str "" ∧
    Mollie.NetworkClient.get ⟨204, .str ""⟩ ≠ .bool true :=
  ⟨rfl, fun h => Mollie.JValue.noConfusion h⟩

/-- C6 amended: only `post` and `delete` map an HTTP 204 response to the
boolean success sentinel `true`; `get` and `patch` return the parsed body
unconditionally, and `post`/`delete` return the parsed body for every
non-204 status. -/
theorem verb_result_mapping (r : Mollie.VerbResponse) :
    (r.status = 204 →
      Mollie.NetworkClient.post r = .bool true ∧ Mollie.NetworkClient.delete r = .bool true) ∧
    (r.status ≠ 204 →
      Mollie.NetworkClient.post r = r.data ∧ Mollie.NetworkClient.delete r = r.data) ∧
    Mollie.NetworkClient.get r = r.data ∧
    Mollie.NetworkClient.patch r = r.data := by
  refine ⟨fun h => ?_, fun h => ?_, rfl, rfl⟩ <;>
    simp [Mollie.NetworkClient.post, Mollie.NetworkClient.delete, h]

/-- Witness for C6 (amended) at a concrete 204 and a concrete 200
response. -/
theorem verb_result_mapping_witness :
    (Mollie.NetworkClient.post ⟨204, .null⟩ = .bool true ∧
      Mollie.NetworkClient.delete ⟨204, .null⟩ = .bool true) ∧
    (Mollie.NetworkClient.post ⟨200, .str "x"⟩ = .str "x" ∧
      Mollie.NetworkClient.delete ⟨200, .str "x"⟩ = .str "x") :=
  ⟨(verb_result_mapping ⟨204, .null⟩).1 rfl,
   (verb_result_mapping ⟨200, .str "x"⟩).2.1 (by decide)⟩

/-- C7 counterexample: a 2×× list response whose body is an object without
`_embedded` does not surface the ApiError `Received unexpected response
from the server`: the destructuring succeeds and the uncaught TypeError
from `embedded[type]` escapes instead. -/
theorem list_missing_embedded_counterexample :
    Mollie.NetworkClient.list "payments" (some (.obj [])) = .typeError ∧
    Mollie.NetworkClient.list "payments" (some (.obj [])) ≠
      .apiError "Received unexpected response from the server" :=
  ⟨rfl, fun h => Mollie.ListOutcome.noConfusion h⟩

/-- C7 amended: a 2×× list response with a null/undefined body surfaces the
ApiError `Received unexpected response from the server`; a non-null body
without `_embedded` surfaces an uncaught TypeError instead; either way a
hard error is surfaced immediately, and a 2×× response is never retried
(the retry interceptor only fires for 5×× error responses). -/
theorem list_envelope_hard_error (tp : String) (d : Mollie.JValue) (r : Mollie.ReqError) :
    (Mollie.NetworkClient.list tp none =
      .apiError "Received unexpected response from the server") ∧
    (Mollie.NetworkClient.list tp (some .null) =
      .apiError "Received unexpected response from the server") ∧
    (d ≠ .null → d.getProp "_embedded" = none →
      Mollie.NetworkClient.list tp (some d) = .typeError) ∧
    (∀ e, r.response = some e → e.status / 100 = 2 → Mollie.shouldRetry r = false) := by
  refine ⟨rfl, rfl, fun hnull hemb => ?_, fun e hresp h2 => ?_⟩
  · cases d with
    | null => exact absurd rfl hnull
    | bool b => rfl
    | num n => rfl
    | str s => rfl
    | arr elems => rfl
    | obj fields =>
      simp only [Mollie.NetworkClient.list]
      rw [hemb]
  · simp only [Mollie.shouldRetry, hresp]
    split
    · rfl
    · simp [h2]

/-- Witness for C7 (amended) at a concrete body lacking `_embedded` and a
concrete 200 error response. -/
theorem list_envelope_hard_error_witness :
    Mollie.NetworkClient.list "payments" (some (.obj [("foo", .null)])) = .typeError ∧
    Mollie.shouldRetry ⟨0, some ⟨200, none⟩⟩ = false :=
  ⟨(list_envelope_hard_error "payments" (.obj [("foo", .null)]) ⟨0, some ⟨200, none⟩⟩).2.2.1
      (fun h => Mollie.JValue.noConfusion h) rfl,
   (list_envelope_hard_error "payments" (.obj [("foo", .null)]) ⟨0, some ⟨200, none⟩⟩).2.2.2
      ⟨200, none⟩ rfl rfl⟩

/-! ## Theorems for the iterate generator -/

/-- C8: a consumer that breaks after the first item never causes a second
page request, even when the first page has a continuation link and the
buffer is already below the low water mark: the prefetch check sits after
the yield, so it never runs for an abandoned generator. -/
theorem break_after_first_item_single_request
    (p : Mollie.Page) (ps : List Mollie.Page) (x : Nat) (xs : List Nat)
    (hitems : p.items = x :: xs)
    (hnext : p.hasNext = true)
    (hlow : (xs.length : ℚ) < Mollie.iteratorLowWaterMark) :
    (Mollie.runIter (p :: ps) 1).1 = [x] ∧
    (Mollie.runIter (p :: ps) 1).2.requests = 1 := by
  constructor <;>
    simp [Mollie.runIter, Mollie.startIter, Mollie.getNextItem, Mollie.runFrom, hitems]

/-- Witness for C8 at a concrete three-item first page with a continuation
link. -/
theorem break_after_first_item_witness :
    (Mollie.runIter [⟨[1, 2, 3], true⟩, ⟨[4], false⟩] 1).1 = [1] ∧
    (Mollie.runIter [⟨[1, 2, 3], true⟩, ⟨[4], false⟩] 1).2.requests = 1 :=
  break_after_first_item_single_request ⟨[1, 2, 3], true⟩ [⟨[4], false⟩] 1 [2, 3]
    rfl rfl (by norm_num [Mollie.iteratorLowWaterMark])

/-- C9: after a yield, the next-page request is issued exactly when no page
request is pending, the current page has a continuation link, and the
buffer has dropped below the low water mark 5.5; the shift/swap logic never
issues a request; and a request is only ever issued while none is pending,
so at most one page fetch is in flight per iterator. -/
theorem next_page_request_iff (s : Mollie.IterState) :
    ((Mollie.prefetchCheck s).requests = s.requests + 1 ↔
      s.pending = none ∧ s.hasNext = true ∧
        (s.buffer.length : ℚ) < Mollie.iteratorLowWaterMark) ∧
    ((Mollie.prefetchCheck s).requests = s.requests ↔
      ¬(s.pending = none ∧ s.hasNext = true ∧
        (s.buffer.length : ℚ) < Mollie.iteratorLowWaterMark)) ∧
    (∀ x s', Mollie.getNextItem s = some (x, s') → s'.requests = s.requests) ∧
    ((Mollie.prefetchCheck s).requests ≠ s.requests → s.pending = none) := by
  have hpc : (Mollie.prefetchCheck s).requests =
      if s.pending = none ∧ s.hasNext = true ∧
          (s.buffer.length : ℚ) < Mollie.iteratorLowWaterMark
      then s.requests + 1 else s.requests := by
    simp only [Mollie.prefetchCheck]
    split
    · split <;> rfl
    · rfl
  refine ⟨?_, ?_, ?_, ?_⟩
  · rw [hpc]
    split
    · simp_all
    · simp_all
  · rw [hpc]
    split
    · simp_all
    · simp_all
  · intro x s' h
    simp only [Mollie.getNextItem] at h
    split at h
    · cases h; rfl
    · split at h
      · cases h
      · split at h
        · cases h; rfl
        · cases h
  · rw [hpc]
    split
    · simp_all
    · simp_all

/-- Witness for C9: the shift of a concrete state preserves the request
count, discharging the hypothesis of the third conjunct. -/
theorem next_page_request_iff_witness :
    (⟨[], true, none, [], 7⟩ : Mollie.IterState).requests =
      (⟨[1], true, none, [], 7⟩ : Mollie.IterState).requests :=
  (next_page_request_iff ⟨[1], true, none, [], 7⟩).2.2.1 1 ⟨[], true, none, [], 7⟩ rfl

/-! ## Theorems for checkId and PermissionsBinder.get -/

/-- C10: because 'permission' is not a registered resource kind, `checkId`
tests `startsWith(undefined)`, which JS evaluates as the literal prefix
"undefined"; hence `PermissionsBinder.get` throws the ApiError `The
permission id is invalid` before any network access for every id not
beginning with "undefined" — in particular for every conventionally
formatted permission identifier. -/
theorem permission_get_rejects_ids (id : String)
    (h : "undefined".data.isPrefixOf id.data = false) :
    Mollie.PermissionsBinder.get id = .apiError "The permission id is invalid" := by
  have hck : Mollie.checkId (some id) "permission" =
      "undefined".data.isPrefixOf id.data := rfl
  simp [Mollie.PermissionsBinder.get, hck, h]

/-- Witness for C10 at the conventionally formatted permission id
`payments.read`. -/
theorem permission_get_rejects_ids_witness :
    Mollie.PermissionsBinder.get "payments.read" =
      .apiError "The permission id is invalid" :=
  permission_get_rejects_ids "payments.read" (by decide)
